import Mathlib

/-!
Verification of the manual-control subsystem of the auto-syringe Marlin fork
(`src/Marlin/src/feature/manual_control.cpp`).

The C translation unit is shallowly embedded below.  The file-scope `static`
variables become fields of `MCState`; serial diagnostics become a list of
`Msg` events; machine integers become `Nat`/`Int` with explicit reductions
modulo `2 ^ w` exactly where C overflow/truncation can matter
(`uint16_t` accumulation in `parse_steps`, the `(uint16_t)` cast on the
position error, the `uint32_t` millis subtraction, the `int32_t`
accumulation in the `adc_range` handler, the `uint8_t` update counter).
`float` arithmetic in `calculate_resistance` is modelled over `ℚ` (exact
arithmetic, same formula and branch structure).  C integer division that can
see negative operands is `Int.tdiv` (truncation toward zero, as in C99).
-/

/-- Number of samples in the ADC ring buffer (`#define ADC_SAMPLES 8`). -/
def ADC_SAMPLES : Nat := 8

/-- The file-scope mutable state of `manual_control.cpp`:
`adc_control_active`, `adc_current_position`, `adc_target_position`,
`adc_range`, `position_range`, `last_adc_move`, the ring buffer with its
index and filled flag, the shared stepper-enable line (`true` = enabled,
i.e. `X_ENABLE_PIN` held LOW), and the `static uint8_t update_counter`
local to `manual_adc_control_y`. -/
structure MCState where
  adc_control_active : Bool
  adc_current_position : Int
  adc_target_position : Int
  adc_range : Nat
  position_range : Int
  last_adc_move : Nat
  adc_buffer : List Nat
  adc_buffer_index : Nat
  adc_buffer_filled : Bool
  steppers_enabled : Bool
  update_counter : Nat
deriving DecidableEq, Repr

/-- Initial values of the statics (plus the pin state established by
`manual_control_init`, which calls `manual_disable_steppers`). -/
def init_state : MCState :=
  { adc_control_active := false
    adc_current_position := 0
    adc_target_position := 0
    adc_range := 4095
    position_range := 6400
    last_adc_move := 0
    adc_buffer := [0, 0, 0, 0, 0, 0, 0, 0]
    adc_buffer_index := 0
    adc_buffer_filled := false
    steppers_enabled := false
    update_counter := 0 }

/-- The stepper axes reachable from the command interpreter. -/
inductive Axis where
  | X
  | Y
  | Z
  | E0
deriving DecidableEq, Repr

/-- Serial diagnostics, abstracted to events (the C code prints
human-readable text for each of these). -/
inductive Msg where
  | readHotend
  | readBed
  | move (axis : Axis) (forward : Bool) (steps : Nat)
  | steppersEnabled
  | steppersDisabled
  | adcOn (lo hi : Int)
  | adcOff
  | zeroed
  | rangeSet (half : Int)
  | rangeReport (half : Int)
  | help
  | unknown (cmd : List Char)
deriving DecidableEq, Repr

/-- `c >= '0' && c <= '9'`, the digit test used by both numeric parsers. -/
def isDigitChar (c : Char) : Bool :=
  decide ('0' ≤ c) && decide (c ≤ '9')

/-- The digit-accumulation loop of `parse_steps`: `steps` is a `uint16_t`,
so each `steps = steps * 10 + (*p - '0')` assignment truncates modulo
`2 ^ 16`.  Stops at the first non-digit (including the terminating NUL,
i.e. the end of the list). -/
def parseDigits : List Char → Nat → Nat
  | [], acc => acc
  | c :: rest, acc =>
      if isDigitChar c then
        parseDigits rest ((acc * 10 + (c.toNat - 48)) % 65536)
      else acc

/-- `parse_steps(command, defaultSteps)`: skip the two-character axis
prefix, return the default on an empty suffix, otherwise accumulate the
leading digit run and keep it only if it lies in `(0, 10000]`. -/
def parse_steps (command : List Char) (defaultSteps : Nat) : Nat :=
  let numStart := command.drop 2
  if numStart = [] then defaultSteps
  else
    let steps := parseDigits numStart 0
    if 0 < steps ∧ steps ≤ 10000 then steps else defaultSteps

/-- Wrap an unbounded integer to the `int32_t` it would be stored as
(two's complement). -/
def wrap32 (x : Int) : Int := (x + 2 ^ 31) % 2 ^ 32 - 2 ^ 31

/-- The digit-accumulation loop of the `adc_range` handler: `new_range` is
an `int32_t`, modelled with two's-complement wrapping at each step. -/
def parseDigits32 : List Char → Int → Int
  | [], acc => acc
  | c :: rest, acc =>
      if isDigitChar c then
        parseDigits32 rest (wrap32 (acc * 10 + ((c.toNat : Int) - 48)))
      else acc

/-- Mathematical decimal value of a digit string (no machine truncation);
used to compare the parser with the spec's "parsed decimal value". -/
def decValue (ds : List Char) : Nat :=
  ds.foldl (fun a c => a * 10 + (c.toNat - 48)) 0

/-- `uint32_t` subtraction `now - last` as used for the 10 ms rate gate. -/
def u32_sub (a b : Nat) : Nat :=
  (a % 2 ^ 32 + (2 ^ 32 - b % 2 ^ 32)) % 2 ^ 32

/-- One inner bubble-sort pass of at most `k` adjacent compare-swaps
(`for (j = 0; j < k; j++) if (buf[j] > buf[j+1]) swap`). -/
def bubblePassN : Nat → List Nat → List Nat
  | 0, l => l
  | _ + 1, [] => []
  | _ + 1, [a] => [a]
  | k + 1, a :: b :: rest =>
      if b < a then b :: bubblePassN k (a :: rest)
      else a :: bubblePassN k (b :: rest)

/-- The outer bubble-sort loop: pass `i` (for `i = 0 .. n-2`) performs
`n - i - 1` compare-swaps, i.e. the inner bounds run `n-1, n-2, ..., 1`. -/
def bubbleSortAux : Nat → List Nat → List Nat
  | 0, l => l
  | k + 1, l => bubbleSortAux k (bubblePassN (k + 1) l)

/-- The bubble sort of `manual_adc_control_y` applied to the scratch copy
of the valid samples. -/
def bubbleSort (l : List Nat) : List Nat :=
  bubbleSortAux (l.length - 1) l

/-- Insert a raw ADC reading into the ring buffer, advance the index
modulo `ADC_SAMPLES`, and latch the filled flag once the index wraps
(lines 130-138 of `manual_adc_control_y`). -/
def sample_push (s : MCState) (raw : Nat) : MCState :=
  let buf := s.adc_buffer.set s.adc_buffer_index raw
  let idx := (s.adc_buffer_index + 1) % ADC_SAMPLES
  let filled := if idx = 0 ∧ s.adc_buffer_filled = false then true
                else s.adc_buffer_filled
  { s with adc_buffer := buf, adc_buffer_index := idx,
           adc_buffer_filled := filled }

/-- `samples_to_use = adc_buffer_filled ? ADC_SAMPLES : adc_buffer_index`. -/
def samples_to_use (s : MCState) : Nat :=
  if s.adc_buffer_filled then ADC_SAMPLES else s.adc_buffer_index

/-- The median computation of `manual_adc_control_y` (lines 140-160):
copy the valid samples into a scratch sequence, bubble-sort it, and take
the element at index `samples_to_use / 2`. -/
def filtered_value (s : MCState) : Nat :=
  let n := samples_to_use s
  (bubbleSort (s.adc_buffer.take n)).getD (n / 2) 0

/-- Arduino `map(x, in_min, in_max, out_min, out_max)` over `long`
(32-bit signed) arithmetic; C division truncates toward zero. -/
def map_c (x in_min in_max out_min out_max : Int) : Int :=
  Int.tdiv ((x - in_min) * (out_max - out_min)) (in_max - in_min) + out_min

/-- The target position computed by a tracking tick from the freshly
pushed buffer: `map(adcValue, 0, adc_range, -position_range/2,
position_range/2)` (in C, `-position_range/2` parses as
`(-position_range)/2`). -/
def tick_target (s : MCState) : Int :=
  map_c (filtered_value s) 0 (s.adc_range : Int)
    (Int.tdiv (-s.position_range) 2) (Int.tdiv s.position_range 2)

/-- The per-pulse loop body `adc_current_position += direction ? 1 : -1`,
iterated once per issued step. -/
def step_loop (pos : Int) (direction : Bool) : Nat → Int
  | 0 => pos
  | n + 1 => step_loop (pos + if direction then 1 else -1) direction n

/-- Result of one call of `manual_adc_control_y`: the new state, the
number of step pulses issued on `Y_STEP_PIN`, and whether the periodic
status line was printed. -/
structure TickResult where
  state : MCState
  steps : Nat
  diag : Bool
deriving DecidableEq, Repr

/-- One tracking tick, `manual_adc_control_y()`.  `now` is `millis()` and
`raw` the `analogRead(TEMP_BED_PIN)` sample.  Returns immediately when
tracking is inactive or the 10 ms rate gate fails; otherwise pushes the
sample, computes the median-filtered target, and outside the ±5 deadzone
issues `min((uint16_t)abs(error), 10)` corrective steps, updating
`adc_current_position` by ±1 per pulse, recording `last_adc_move = now`
and bumping the diagnostic counter. -/
def manual_adc_control_y (s : MCState) (now raw : Nat) : TickResult :=
  if s.adc_control_active = false then ⟨s, 0, false⟩
  else if u32_sub now s.last_adc_move < 10 then ⟨s, 0, false⟩
  else
    let s1 := sample_push s raw
    let target := tick_target s1
    let position_error := target - s1.adc_current_position
    if 5 < position_error.natAbs then
      let direction := decide (0 < position_error)
      let steps_to_move := min (position_error.natAbs % 65536) 10
      let uc := (s1.update_counter + 1) % 256
      ⟨{ s1 with
           adc_target_position := target,
           adc_current_position :=
             step_loop s1.adc_current_position direction steps_to_move,
           last_adc_move := now,
           steppers_enabled := true,
           update_counter := if 25 ≤ uc then 0 else uc },
       steps_to_move, decide (25 ≤ uc)⟩
    else
      ⟨{ s1 with adc_target_position := target }, 0, false⟩

/-- `manual_move_axis`: asserts the shared enable line and pulses the axis
`steps` times; the only modelled state change is the enable line, the
pulses are reported as a `Msg.move` event. -/
def manual_move_axis (s : MCState) (axis : Axis) (direction : Bool)
    (steps : Nat) : MCState × List Msg :=
  ({ s with steppers_enabled := true }, [Msg.move axis direction steps])

/-- `manual_enable_steppers()`: drives `X_ENABLE_PIN` LOW. -/
def manual_enable_steppers (s : MCState) : MCState × List Msg :=
  ({ s with steppers_enabled := true }, [Msg.steppersEnabled])

/-- `manual_disable_steppers()`: drives `X_ENABLE_PIN` HIGH. -/
def manual_disable_steppers (s : MCState) : MCState × List Msg :=
  ({ s with steppers_enabled := false }, [Msg.steppersDisabled])

/-- The `"adc_on"` branch: `adc_control_active = true`, then
`manual_enable_steppers()` and the range announcement. -/
def adc_on_cmd (s : MCState) : MCState × List Msg :=
  ({ s with adc_control_active := true, steppers_enabled := true },
   [Msg.steppersEnabled,
    Msg.adcOn (Int.tdiv (-s.position_range) 2)
      (Int.tdiv s.position_range 2)])

/-- The `"adc_off"` branch: `adc_control_active = false`. -/
def adc_off_cmd (s : MCState) : MCState × List Msg :=
  ({ s with adc_control_active := false }, [Msg.adcOff])

/-- The `"adc_zero"` branch: `adc_current_position = 0`. -/
def adc_zero_cmd (s : MCState) : MCState × List Msg :=
  ({ s with adc_current_position := 0 }, [Msg.zeroed])

/-- The `"adc_range"` branch: with a non-empty suffix, accumulate its
leading digits into an `int32_t` and store it as the new range only if it
lies in `(0, 50000]` (nothing is printed on rejection); with an empty
suffix, report the current range. -/
def adc_range_cmd (s : MCState) (command : List Char) : MCState × List Msg :=
  let numStart := command.drop 9
  if numStart = [] then
    (s, [Msg.rangeReport (Int.tdiv s.position_range 2)])
  else
    let new_range := parseDigits32 numStart 0
    if 0 < new_range ∧ new_range ≤ 50000 then
      ({ s with position_range := new_range },
       [Msg.rangeSet (Int.tdiv new_range 2)])
    else (s, [])

/-- `process_manual_command(command)`: the strcmp/strncmp dispatch chain,
in source order. -/
def process_manual_command (s : MCState) (command : List Char) :
    MCState × List Msg :=
  if command = "h".toList then
    (s, [Msg.readHotend])
  else if command = "b".toList then
    (s, [Msg.readBed])
  else if List.isPrefixOf "x+".toList command then
    manual_move_axis s Axis.X true (parse_steps command 100)
  else if List.isPrefixOf "x-".toList command then
    manual_move_axis s Axis.X false (parse_steps command 100)
  else if List.isPrefixOf "y+".toList command then
    manual_move_axis s Axis.Y true (parse_steps command 100)
  else if List.isPrefixOf "y-".toList command then
    manual_move_axis s Axis.Y false (parse_steps command 100)
  else if List.isPrefixOf "z+".toList command then
    manual_move_axis s Axis.Z true (parse_steps command 10)
  else if List.isPrefixOf "z-".toList command then
    manual_move_axis s Axis.Z false (parse_steps command 10)
  else if List.isPrefixOf "e+".toList command then
    manual_move_axis s Axis.E0 true (parse_steps command 50)
  else if List.isPrefixOf "e-".toList command then
    manual_move_axis s Axis.E0 false (parse_steps command 50)
  else if command = "on".toList then
    manual_enable_steppers s
  else if command = "off".toList then
    manual_disable_steppers s
  else if command = "adc_on".toList then
    adc_on_cmd s
  else if command = "adc_off".toList then
    adc_off_cmd s
  else if command = "adc_zero".toList then
    adc_zero_cmd s
  else if List.isPrefixOf "adc_range".toList command then
    adc_range_cmd s command
  else if command = "help".toList then
    (s, [Msg.help])
  else if command ≠ [] then
    (s, [Msg.unknown command])
  else (s, [])

/-- `calculate_resistance(voltage, pullup_resistance)`, modelled over `ℚ`:
`if (v >= 3.3) return 0; if (v <= 0) return 999999;
return v * pullup / (3.3 - v);`. -/
def calculate_resistance (voltage pullup_resistance : ℚ) : ℚ :=
  if 33 / 10 ≤ voltage then 0
  else if voltage ≤ 0 then 999999
  else voltage * pullup_resistance / (33 / 10 - voltage)

/-- C2 counterexample: pushing `[10,90,20,80,30,70,40,60]` into the empty
sample filter and reading the filtered value does not give 40. -/
theorem C2_cex :
    filtered_value
      (List.foldl sample_push init_state [10, 90, 20, 80, 30, 70, 40, 60])
      ≠ 40 := by
  decide

/-- C2 (amended): after 8 consecutive pushes of
`[10,90,20,80,30,70,40,60]` the filtered (median) value is 60 — the
element at index `count / 2 = 4` (zero-based, i.e. the upper-middle
element) of the sorted window `[10,20,30,40,60,70,80,90]`. -/
theorem C2_median_scenario :
    filtered_value
      (List.foldl sample_push init_state [10, 90, 20, 80, 30, 70, 40, 60])
      = 60 := by
  decide

/-- C4 counterexample: interpreting `"adc_range0"` emits no diagnostic at
all (the current range is not reported), even though the range is left
unchanged at its initial value. -/
theorem C4_cex :
    (process_manual_command init_state ("adc_range0".toList)).2 = [] ∧
    (process_manual_command init_state
        ("adc_range0".toList)).1.position_range = 6400 := by
  exact ⟨rfl, rfl⟩

/-- C4 (amended): interpreting `"adc_range0"` rejects the update (0 fails
the `0 < N ≤ 50000` check), leaves the whole state — in particular the
stored position range — unchanged, and emits no diagnostic: the current
range is reported only when the numeric suffix is absent. -/
theorem C4_adc_range0 (s : MCState) :
    process_manual_command s ("adc_range0".toList) = (s, []) := by
  rfl

/-- C9: when tracking is inactive, one call of the tracking tick returns
immediately with no state mutation at all — the sample ring buffer, its
index and filled flag, current and target positions, the last-move
timestamp, the enable line and diagnostic counter are untouched, zero
step pulses are issued, and no status line is printed. -/
theorem C9_inactive_tick (s : MCState) (now raw : Nat)
    (h : s.adc_control_active = false) :
    manual_adc_control_y s now raw = ⟨s, 0, false⟩ := by
  simp [manual_adc_control_y, h]

/-- C9 witness: the inactive initial state is returned unchanged. -/
theorem C9_witness :
    manual_adc_control_y init_state 5 123 = ⟨init_state, 0, false⟩ :=
  C9_inactive_tick init_state 5 123 rfl

/-- C1 counterexample: from an inactive state with
`adc_current_position = 7`, processing the command `"adc_zero"` mutates
`adc_current_position` to 0 — a command processed while tracking is
inactive does mutate the current position. -/
theorem C1_cex :
    ({ init_state with adc_current_position := 7 } :
        MCState).adc_control_active = false ∧
    ({ init_state with adc_current_position := 7 } :
        MCState).adc_current_position = 7 ∧
    (process_manual_command { init_state with adc_current_position := 7 }
        ("adc_zero".toList)).1.adc_current_position = 0 := by
  exact ⟨rfl, rfl, rfl⟩

/-- Frame fact: the `adc_range` handler never touches
`adc_current_position`, whichever of its three branches runs. -/
theorem adc_range_cmd_position (s : MCState) (cmd : List Char) :
    (adc_range_cmd s cmd).1.adc_current_position
      = s.adc_current_position := by
  simp only [adc_range_cmd]
  split_ifs <;> rfl

/-- C1 (amended): `adc_current_position` is mutated by exactly two
mechanisms — the `adc_zero` command, which resets it to 0 in either
tracking state, and the Position Tracker's corrective stepping, which
runs only while tracking is active.  No other command mutates it, and a
tick with tracking inactive leaves it unchanged. -/
theorem C1_position_mutation :
    (∀ (s : MCState) (cmd : List Char), cmd ≠ "adc_zero".toList →
        (process_manual_command s cmd).1.adc_current_position
          = s.adc_current_position) ∧
    (∀ s : MCState,
        (process_manual_command s
            ("adc_zero".toList)).1.adc_current_position = 0) ∧
    (∀ (s : MCState) (now raw : Nat), s.adc_control_active = false →
        (manual_adc_control_y s now raw).state.adc_current_position
          = s.adc_current_position) := by
  refine ⟨?_, ?_, ?_⟩
  · intro s cmd h
    rw [process_manual_command.eq_def]
    by_cases h1 : cmd = "h".toList
    · rw [if_pos h1]
    rw [if_neg h1]
    by_cases h2 : cmd = "b".toList
    · rw [if_pos h2]
    rw [if_neg h2]
    by_cases h3 : List.isPrefixOf "x+".toList cmd
    · rw [if_pos h3]; rfl
    rw [if_neg h3]
    by_cases h4 : List.isPrefixOf "x-".toList cmd
    · rw [if_pos h4]; rfl
    rw [if_neg h4]
    by_cases h5 : List.isPrefixOf "y+".toList cmd
    · rw [if_pos h5]; rfl
    rw [if_neg h5]
    by_cases h6 : List.isPrefixOf "y-".toList cmd
    · rw [if_pos h6]; rfl
    rw [if_neg h6]
    by_cases h7 : List.isPrefixOf "z+".toList cmd
    · rw [if_pos h7]; rfl
    rw [if_neg h7]
    by_cases h8 : List.isPrefixOf "z-".toList cmd
    · rw [if_pos h8]; rfl
    rw [if_neg h8]
    by_cases h9 : List.isPrefixOf "e+".toList cmd
    · rw [if_pos h9]; rfl
    rw [if_neg h9]
    by_cases h10 : List.isPrefixOf "e-".toList cmd
    · rw [if_pos h10]; rfl
    rw [if_neg h10]
    by_cases h11 : cmd = "on".toList
    · rw [if_pos h11]; rfl
    rw [if_neg h11]
    by_cases h12 : cmd = "off".toList
    · rw [if_pos h12]; rfl
    rw [if_neg h12]
    by_cases h13 : cmd = "adc_on".toList
    · rw [if_pos h13]; rfl
    rw [if_neg h13]
    by_cases h14 : cmd = "adc_off".toList
    · rw [if_pos h14]; rfl
    rw [if_neg h14]
    rw [if_neg h]
    by_cases h16 : List.isPrefixOf "adc_range".toList cmd
    · rw [if_pos h16]
      exact adc_range_cmd_position s cmd
    rw [if_neg h16]
    by_cases h17 : cmd = "help".toList
    · rw [if_pos h17]
    rw [if_neg h17]
    by_cases h18 : cmd ≠ []
    · rw [if_pos h18]
    rw [if_neg h18]
  · intro s
    rfl
  · intro s now raw h
    simp [manual_adc_control_y, h]

/-- C1 witness: instantiating the mutation discipline at concrete inputs. -/
theorem C1_witness :
    (process_manual_command init_state ("h".toList)).1.adc_current_position
      = init_state.adc_current_position ∧
    (process_manual_command init_state
        ("adc_zero".toList)).1.adc_current_position = 0 ∧
    (manual_adc_control_y init_state 5 123).state.adc_current_position
      = init_state.adc_current_position :=
  ⟨C1_position_mutation.1 init_state ("h".toList) (by decide),
   C1_position_mutation.2.1 init_state,
   C1_position_mutation.2.2 init_state 5 123 rfl⟩

/-- One compare-swap pass preserves the length of the scratch buffer. -/
theorem bubblePassN_length :
    ∀ (k : Nat) (l : List Nat), (bubblePassN k l).length = l.length := by
  intro k
  induction k with
  | zero => intro l; rfl
  | succ k ih =>
    intro l
    match l with
    | [] => rfl
    | [a] => rfl
    | a :: b :: rest =>
      simp only [bubblePassN]
      split_ifs <;> simp [ih]

/-- The whole outer loop preserves the length of the scratch buffer. -/
theorem bubbleSortAux_length :
    ∀ (k : Nat) (l : List Nat), (bubbleSortAux k l).length = l.length := by
  intro k
  induction k with
  | zero => intro l; rfl
  | succ k ih =>
    intro l
    rw [bubbleSortAux, ih, bubblePassN_length]

/-- The bubble sort preserves the length of the scratch buffer. -/
theorem bubbleSort_length (l : List Nat) :
    (bubbleSort l).length = l.length := by
  rw [bubbleSort, bubbleSortAux_length]

/-- C8: after the push that every tracking tick performs before filtering,
the number of valid samples is at least 1 and at most `ADC_SAMPLES`; hence
the C expression `samples_to_use - 1` cannot wrap, the median index
`samples_to_use / 2` is a strictly in-bounds index of the sorted scratch
sequence, and the buffer keeps its 8 slots. -/
theorem C8_median_bounds (s : MCState) (raw : Nat)
    (hlen : s.adc_buffer.length = 8) :
    1 ≤ samples_to_use (sample_push s raw) ∧
    samples_to_use (sample_push s raw) ≤ ADC_SAMPLES ∧
    samples_to_use (sample_push s raw) / 2
      < samples_to_use (sample_push s raw) ∧
    (sample_push s raw).adc_buffer.length = 8 ∧
    samples_to_use (sample_push s raw) / 2
      < (bubbleSort ((sample_push s raw).adc_buffer.take
          (samples_to_use (sample_push s raw)))).length := by
  have hbuf : (sample_push s raw).adc_buffer.length = 8 := by
    simp [sample_push, hlen]
  have hn : 1 ≤ samples_to_use (sample_push s raw) ∧
      samples_to_use (sample_push s raw) ≤ 8 := by
    cases hb : s.adc_buffer_filled <;>
      simp only [samples_to_use, sample_push, hb, ADC_SAMPLES] <;>
      split_ifs <;> simp_all <;> omega
  have h8 : ADC_SAMPLES = 8 := rfl
  refine ⟨hn.1, by omega, by omega, hbuf, ?_⟩
  rw [bubbleSort_length, List.length_take, hbuf]
  omega

/-- C8 witness: the bounds hold concretely for a push into the pristine
initial buffer. -/
theorem C8_witness :
    1 ≤ samples_to_use (sample_push init_state 0) ∧
    samples_to_use (sample_push init_state 0) ≤ ADC_SAMPLES ∧
    samples_to_use (sample_push init_state 0) / 2
      < samples_to_use (sample_push init_state 0) ∧
    (sample_push init_state 0).adc_buffer.length = 8 ∧
    samples_to_use (sample_push init_state 0) / 2
      < (bubbleSort ((sample_push init_state 0).adc_buffer.take
          (samples_to_use (sample_push init_state 0)))).length :=
  C8_median_bounds init_state 0 rfl

/-- C7: over exact arithmetic, `calculate_resistance` is strictly
increasing in the voltage on `(0, 3.3)` for any positive pull-up, returns
0 at or above the 3.3 supply, and returns the open-circuit sentinel
999999 at or below 0. -/
theorem C7_resistance :
    (∀ v₁ v₂ p : ℚ, 0 < p → 0 < v₁ → v₁ < v₂ → v₂ < 33 / 10 →
        calculate_resistance v₁ p < calculate_resistance v₂ p) ∧
    (∀ v p : ℚ, 33 / 10 ≤ v → calculate_resistance v p = 0) ∧
    (∀ v p : ℚ, v ≤ 0 → calculate_resistance v p = 999999) := by
  refine ⟨?_, ?_, ?_⟩
  · intro v₁ v₂ p hp h1 h12 h2
    have hv1lt : v₁ < 33 / 10 := lt_trans h12 h2
    rw [calculate_resistance, if_neg (by linarith), if_neg (by linarith)]
    rw [calculate_resistance, if_neg (by linarith), if_neg (by linarith)]
    rw [div_lt_div_iff₀ (by linarith) (by linarith)]
    nlinarith [mul_pos hp (sub_pos.2 h12)]
  · intro v p hv
    rw [calculate_resistance, if_pos hv]
  · intro v p hv
    rw [calculate_resistance, if_neg (by linarith), if_pos hv]

/-- C7 witness: concrete instances of all three clauses at the default
4700 Ω pull-up. -/
theorem C7_witness :
    calculate_resistance 1 4700 < calculate_resistance 2 4700 ∧
    calculate_resistance (33 / 10) 4700 = 0 ∧
    calculate_resistance 0 4700 = 999999 :=
  ⟨C7_resistance.1 1 2 4700 (by norm_num) (by norm_num) (by norm_num)
      (by norm_num),
   C7_resistance.2.1 (33 / 10) 4700 (by norm_num),
   C7_resistance.2.2 0 4700 (by norm_num)⟩

/-- The accumulation loop runs through a run of digits and continues on
the remainder with the accumulated value. -/
theorem parseDigits_append (rest : List Char) :
    ∀ (ds : List Char) (acc : Nat), (∀ c ∈ ds, isDigitChar c) →
      parseDigits (ds ++ rest) acc = parseDigits rest (parseDigits ds acc) := by
  intro ds
  induction ds with
  | nil => intro acc _; rfl
  | cons c t ih =>
    intro acc hd
    have hc : isDigitChar c = true := hd c (by simp)
    simp only [List.cons_append, parseDigits, hc, if_true]
    exact ih _ fun x hx => hd x (List.mem_cons_of_mem _ hx)

/-- Congruence of the exact decimal fold modulo `m`: only the residue of
the accumulator matters. -/
theorem foldl_digits_congr (m : Nat) :
    ∀ (ds : List Char) (x y : Nat), x % m = y % m →
      (ds.foldl (fun a c => a * 10 + (c.toNat - 48)) x) % m
        = (ds.foldl (fun a c => a * 10 + (c.toNat - 48)) y) % m := by
  intro ds
  induction ds with
  | nil => intro x y h; simpa using h
  | cons c t ih =>
    intro x y h
    simp only [List.foldl_cons]
    exact ih _ _ (Nat.ModEq.add_right (c.toNat - 48) (Nat.ModEq.mul_right 10 h))

/-- On a non-empty all-digit run, the `uint16_t` accumulation computes the
exact decimal value reduced modulo `2 ^ 16`. -/
theorem parseDigits_mod_spec :
    ∀ (ds : List Char) (acc : Nat), ds ≠ [] → (∀ c ∈ ds, isDigitChar c) →
      parseDigits ds acc
        = (ds.foldl (fun a c => a * 10 + (c.toNat - 48)) acc) % 65536 := by
  intro ds
  induction ds with
  | nil => intro acc h _; exact absurd rfl h
  | cons c t ih =>
    intro acc _ hd
    have hc : isDigitChar c = true := hd c (by simp)
    simp only [parseDigits, hc, if_true, List.foldl_cons]
    cases t with
    | nil => rfl
    | cons a u =>
      rw [ih _ (List.cons_ne_nil a u)
            (fun x hx => hd x (List.mem_cons_of_mem _ hx))]
      exact foldl_digits_congr 65536 (a :: u) _ _ (by omega)

/-- C10: `parse_steps` reads only the maximal run of decimal digits after
the two-character prefix and ignores everything after that run — appending
any tail that does not begin with a digit leaves the result unchanged
(with an empty digit run this specialises to: a suffix beginning with a
non-digit yields the default). -/
theorem C10_parse_ignores_tail (p ds rest : List Char) (d : Nat)
    (hp : p.length = 2)
    (hds : ∀ c ∈ ds, isDigitChar c)
    (hrest : rest = [] ∨ isDigitChar rest.headI = false) :
    parse_steps (p ++ (ds ++ rest)) d = parse_steps (p ++ ds) d := by
  have hdrop : ∀ x : List Char, (p ++ x).drop 2 = x := by
    intro x
    rw [← hp, List.drop_left]
  have hstop : ∀ acc : Nat, parseDigits rest acc = acc := by
    intro acc
    cases rest with
    | nil => rfl
    | cons c rs =>
      rcases hrest with h | h
      · exact absurd h (List.cons_ne_nil c rs)
      · simp only [List.headI_cons] at h
        simp [parseDigits, h]
  cases ds with
  | nil =>
    cases hr : rest with
    | nil => rfl
    | cons c rs =>
      subst hr
      simp only [parse_steps, hdrop, List.nil_append]
      rw [if_neg (List.cons_ne_nil c rs), hstop]
      simp
  | cons a t =>
    have h1 : (a :: t) ++ rest ≠ [] := by simp
    have h2 : a :: t ≠ ([] : List Char) := List.cons_ne_nil a t
    simp only [parse_steps, hdrop]
    rw [if_neg h1, if_neg h2, parseDigits_append rest (a :: t) 0 hds, hstop]

/-- C10 witness: trailing letters after a valid number are ignored. -/
theorem C10_witness :
    parse_steps ("x+".toList ++ ("50".toList ++ "abc".toList)) 100
      = parse_steps ("x+".toList ++ "50".toList) 100 :=
  C10_parse_ignores_tail "x+".toList "50".toList "abc".toList 100
    (by decide) (by decide) (by decide)

/-- C3 counterexample: the suffix `"65537"` parses to
`65537 mod 2^16 = 1`, which passes the `(0, 10000]` check, so the command
`"x+65537"` yields 1 — not the axis default 100 the claim requires for
every value greater than 10000. -/
theorem C3_cex :
    decValue ("65537".toList) = 65537 ∧
    10000 < decValue ("65537".toList) ∧
    parse_steps ("x+65537".toList) 100 = 1 ∧
    parse_steps ("x+65537".toList) 100 ≠ 100 := by
  decide

/-- C3 (amended): the digit run is accumulated in a `uint16_t`, i.e.
modulo `2 ^ 16`; with `v' = v mod 65536` the parser returns `v'` exactly
when `0 < v' ≤ 10000` and the axis default otherwise, so values up to
10000 are returned exactly, but a value above 10000 is defaulted only if
its 16-bit reduction is 0 or above 10000 — otherwise the wrapped value is
returned.  An absent suffix also yields the default. -/
theorem C3_parse_steps_range :
    (∀ (p ds : List Char) (d : Nat), p.length = 2 → ds ≠ [] →
        (∀ c ∈ ds, isDigitChar c) →
        parse_steps (p ++ ds) d
          = if 0 < decValue ds % 65536 ∧ decValue ds % 65536 ≤ 10000
            then decValue ds % 65536 else d) ∧
    (∀ (p : List Char) (d : Nat), p.length = 2 → parse_steps p d = d) := by
  constructor
  · intro p ds d hp hne hds
    have hdrop : (p ++ ds).drop 2 = ds := by rw [← hp, List.drop_left]
    simp only [parse_steps, hdrop]
    rw [if_neg hne, parseDigits_mod_spec ds 0 hne hds]
    rfl
  · intro p d hp
    have hdrop : p.drop 2 = [] := by
      apply List.drop_eq_nil_of_le
      omega
    simp [parse_steps, hdrop]

/-- C3 witness: the in-range suffix `"50"` is returned exactly. -/
theorem C3_witness :
    parse_steps ("x+".toList ++ "50".toList) 100
      = if 0 < decValue ("50".toList) % 65536 ∧
            decValue ("50".toList) % 65536 ≤ 10000
        then decValue ("50".toList) % 65536 else 100 :=
  C3_parse_steps_range.1 "x+".toList "50".toList 100 (by decide) (by decide)
    (by decide)

/-- Closed form of the per-pulse loop: `steps` pulses move the logical
position by exactly `±steps`. -/
theorem step_loop_closed :
    ∀ (n : Nat) (pos : Int) (direction : Bool),
      step_loop pos direction n
        = pos + if direction then (n : Int) else -(n : Int) := by
  intro n
  induction n with
  | zero =>
    intro pos direction
    cases direction <;> simp [step_loop]
  | succ n ih =>
    intro pos direction
    cases direction <;> simp only [step_loop, ih] <;> push_cast <;> ring

/-- C6: whenever one tracking tick would find the target within 5 steps
of the current position (the deadzone), it issues zero step pulses and
leaves `adc_current_position` unchanged — whether the tick runs the
deadzone check, fails the rate gate, or is inactive. -/
theorem C6_deadzone (s : MCState) (now raw : Nat)
    (h₃ : (tick_target (sample_push s raw)
        - s.adc_current_position).natAbs ≤ 5) :
    (manual_adc_control_y s now raw).steps = 0 ∧
    (manual_adc_control_y s now raw).state.adc_current_position
      = s.adc_current_position := by
  have hcur : (sample_push s raw).adc_current_position
      = s.adc_current_position := rfl
  simp only [manual_adc_control_y]
  by_cases h₁ : s.adc_control_active = false
  · rw [if_pos h₁]
    exact ⟨rfl, rfl⟩
  rw [if_neg h₁]
  by_cases h₂ : u32_sub now s.last_adc_move < 10
  · rw [if_pos h₂]
    exact ⟨rfl, rfl⟩
  rw [if_neg h₂]
  simp only [hcur]
  rw [if_neg (by omega :
    ¬ 5 < (tick_target (sample_push s raw)
        - s.adc_current_position).natAbs)]
  exact ⟨rfl, rfl⟩

/-- C6 witness: an active gate-passing tick whose filtered target
coincides with the current position does nothing to the position. -/
theorem C6_witness :
    (manual_adc_control_y
        { init_state with adc_control_active := true,
                          adc_current_position := -3200 } 10 0).steps = 0 ∧
    (manual_adc_control_y
        { init_state with adc_control_active := true,
                          adc_current_position := -3200 }
        10 0).state.adc_current_position = -3200 := by
  exact C6_deadzone
    { init_state with adc_control_active := true,
                      adc_current_position := -3200 }
    10 0 (by decide)

/-- C5 counterexample: with a position error of exactly 65536 (> 5), the
`(uint16_t)` cast of `abs(position_error)` wraps to 0, so the tick issues
zero steps and `adc_current_position` does not change — contradicting the
claim that it moves by at least 1 toward the target. -/
theorem C5_cex :
    (tick_target (sample_push
        { init_state with adc_control_active := true,
                          adc_current_position := -68736 } 0)
      - (-68736 : Int)).natAbs = 65536 ∧
    10 ≤ u32_sub 10 0 ∧
    (manual_adc_control_y
        { init_state with adc_control_active := true,
                          adc_current_position := -68736 } 10 0).steps = 0 ∧
    (manual_adc_control_y
        { init_state with adc_control_active := true,
                          adc_current_position := -68736 }
        10 0).state.adc_current_position = -68736 := by
  decide

/-- C5 (amended): whenever an active, rate-gate-passing tick finds a
position error `err` with `|err| > 5` and `|err|` not a positive multiple
of `2 ^ 16` (true of every reachable state, where `|err| ≤ 50000`), it
issues between 1 and 10 step pulses, moves `adc_current_position` by
exactly that count in the direction of the error, and strictly reduces
the distance to the target. -/
theorem C5_rate_limit (s : MCState) (now raw : Nat) (err : Int)
    (h₁ : s.adc_control_active = true)
    (h₂ : 10 ≤ u32_sub now s.last_adc_move)
    (he : err = tick_target (sample_push s raw) - s.adc_current_position)
    (h₃ : 5 < err.natAbs)
    (h₄ : err.natAbs % 65536 ≠ 0) :
    1 ≤ (manual_adc_control_y s now raw).steps ∧
    (manual_adc_control_y s now raw).steps ≤ 10 ∧
    (manual_adc_control_y s now raw).state.adc_current_position
      = s.adc_current_position
        + (if 0 < err then ((manual_adc_control_y s now raw).steps : Int)
           else -((manual_adc_control_y s now raw).steps : Int)) ∧
    (tick_target (sample_push s raw)
        - (manual_adc_control_y s now raw).state.adc_current_position).natAbs
      < err.natAbs := by
  have hcur : (sample_push s raw).adc_current_position
      = s.adc_current_position := rfl
  have hgate : ¬ u32_sub now s.last_adc_move < 10 := by omega
  have he' : tick_target (sample_push s raw) = s.adc_current_position + err := by
    rw [he]
    ring
  simp only [manual_adc_control_y, h₁]
  rw [if_neg (by simp : ¬ (true = false)), if_neg hgate]
  simp only [hcur, ← he]
  rw [if_pos h₃]
  simp only [step_loop_closed]
  rw [he']
  by_cases hpos : 0 < err
  · rw [if_pos hpos, if_pos (decide_eq_true hpos)]
    refine ⟨by omega, by omega, rfl, by omega⟩
  · rw [if_neg hpos, if_neg (by simpa using hpos)]
    refine ⟨by omega, by omega, rfl, by omega⟩

/-- C5 witness: from the pristine state with tracking on, a tick with
error −3200 issues between 1 and 10 pulses. -/
theorem C5_witness :
    1 ≤ (manual_adc_control_y
        { init_state with adc_control_active := true } 10 0).steps ∧
    (manual_adc_control_y
        { init_state with adc_control_active := true } 10 0).steps ≤ 10 := by
  have h := C5_rate_limit { init_state with adc_control_active := true }
    10 0 (-3200) rfl (by decide) (by decide) (by decide) (by decide)
  exact ⟨h.1, h.2.1⟩
